import Mathlib

/-!
Verification of the GPTerm prompt line-editing engine.

The Rust sources modelled here are `src/prompt/scroll_prompt.rs`
(`ScrollPrompt`, the viewport-scrolling editor), `src/prompt/static_prompt.rs`
(`StaticPrompt`, the unbounded editor) and the shared action dispatcher
`Prompt::input` in `src/prompt/mod.rs`.

Text is modelled as `List Char` (the code's cursor arithmetic is over raw
indices; all inputs in play are ASCII so byte and char indices agree).
Operations that can panic in Rust (out-of-range `String::insert` /
`String::remove` / `split_at`, division by zero in `update_size`, the
`unwrap` of the clipboard read) return `Option`, with `none` meaning a panic;
operations that can never panic are plain functions.
-/

/-- Models `char::is_whitespace` on the ASCII range (the only characters the
repository's data exercises); the additional Unicode whitespace code points
accepted by Rust are irrelevant to the cursor arithmetic. -/
def isWs (c : Char) : Bool :=
  c == ' ' || c == '\t' || c == '\n' || c == '\x0b' || c == '\x0c' || c == '\r'

/-- The character list of a string literal. -/
def chars (s : String) : List Char := s.data

/-- `String::insert(n, c)`: valid only for `n ≤ length` (checked by callers). -/
def insertAt (n : Nat) (c : Char) (l : List Char) : List Char :=
  l.take n ++ c :: l.drop n

/-- `String::remove(n)` without its bound check (callers check `n < length`). -/
def removeAt (n : Nat) (l : List Char) : List Char :=
  l.take n ++ l.drop (n + 1)

/-- `str.rfind(char::is_whitespace)`: index of the last whitespace character. -/
def rfindWs : List Char → Option Nat
  | [] => none
  | c :: cs =>
    match rfindWs cs with
    | some i => some (i + 1)
    | none => if isWs c then some 0 else none

/-- The `ScrollPrompt` struct of `scroll_prompt.rs`: `size` is the viewport
width, `cursor` the window-relative cursor, `offset` the front cutoff. -/
structure ScrollPrompt where
  text : List Char
  size : Nat
  cursor : Nat
  offset : Nat
  deriving DecidableEq, Repr

namespace ScrollPrompt

/-- `ScrollPrompt::max_offset` (`len().saturating_sub(size)`). -/
def max_offset (s : ScrollPrompt) : Nat := s.text.length - s.size

/-- `ScrollPrompt::eol`. -/
def eol (s : ScrollPrompt) : Bool := s.cursor + s.offset == s.text.length

/-- `ScrollPrompt::real_cursor`. -/
def real_cursor (s : ScrollPrompt) : Nat := s.cursor + s.offset

/-- `ScrollPrompt::max_cursor`. -/
def max_cursor (s : ScrollPrompt) : ScrollPrompt :=
  { s with cursor := if s.size > s.text.length then s.text.length else s.size }

/-- `ScrollPrompt::overflow_right` (its local `c` is `s.cursor + n`). -/
def overflow_right (n : Nat) (s : ScrollPrompt) : ScrollPrompt :=
  if s.cursor + n > s.size then
    { s with offset := s.offset + (s.cursor + n - s.size), cursor := s.size }
  else { s with cursor := s.cursor + n }

/-- `ScrollPrompt::is_empty`. -/
def is_empty (s : ScrollPrompt) : Bool := s.text.isEmpty

/-- `ScrollPrompt::str` (render slice); `split_at` panics when
`offset > len`. -/
def str (s : ScrollPrompt) : Option (List Char) :=
  if s.offset = 0 then some s.text
  else if s.offset ≤ s.text.length then some (s.text.drop s.offset)
  else none

/-- `ScrollPrompt::down` (jump to start). -/
def down (s : ScrollPrompt) : ScrollPrompt := { s with cursor := 0, offset := 0 }

/-- `ScrollPrompt::up` (jump to end): `max_cursor()` then
`offset = max_offset()` (which reads only `text` and `size`, unchanged by
`max_cursor`). -/
def up (s : ScrollPrompt) : ScrollPrompt :=
  { s.max_cursor with offset := s.max_offset }

/-- `ScrollPrompt::flush`: clone the text, `down()`, clear. -/
def flush (s : ScrollPrompt) : List Char × ScrollPrompt :=
  (s.text, { s.down with text := [] })

/-- `ScrollPrompt::left` (`saturating_sub` on the offset branch). -/
def left (s : ScrollPrompt) : ScrollPrompt :=
  if s.cursor ≠ 0 then { s with cursor := s.cursor - 1 }
  else { s with offset := s.offset - 1 }

/-- `ScrollPrompt::ctrl_left` (word jump left); `split_at` panics when
`real_cursor > len`. -/
def ctrl_left (s : ScrollPrompt) : Option ScrollPrompt :=
  if s.cursor = 0 ∧ s.offset = 0 then some s
  else if s.cursor + s.offset ≤ s.text.length then
    if (rfindWs (s.text.take (s.cursor + s.offset))).getD 0 < s.offset then
      some { s with cursor := 0,
                    offset := (rfindWs (s.text.take (s.cursor + s.offset))).getD 0 }
    else if (rfindWs (s.text.take (s.cursor + s.offset))).getD 0 > s.offset then
      some { s with cursor := (rfindWs (s.text.take (s.cursor + s.offset))).getD 0 - s.offset }
    else
      some { s with cursor := (rfindWs (s.text.take (s.cursor + s.offset))).getD 0,
                    offset := 0 }
  else none

/-- `ScrollPrompt::right`. -/
def right (s : ScrollPrompt) : ScrollPrompt :=
  if s.eol then s
  else if s.cursor < s.size then { s with cursor := s.cursor + 1 }
  else { s with offset := s.offset + 1 }

/-- `ScrollPrompt::ctrl_right` (word jump right); `split_at` panics when
`real_cursor > len`. -/
def ctrl_right (s : ScrollPrompt) : Option ScrollPrompt :=
  if s.eol then some s
  else if s.cursor + s.offset ≤ s.text.length then
    match (s.text.drop (s.cursor + s.offset)).findIdx? isWs with
    | some n => some (s.overflow_right (n + 1))
    | none => some s.up
  else none

/-- `ScrollPrompt::add_char`: `String::insert` panics when
`real_cursor > len`. -/
def add_char (c : Char) (s : ScrollPrompt) : Option ScrollPrompt :=
  if s.cursor + s.offset ≤ s.text.length then
    some (ScrollPrompt.right { s with text := insertAt (s.cursor + s.offset) c s.text })
  else none

/-- `ScrollPrompt::add_str` (paste): prepend / append / splice branches;
`split_at` panics when `real_cursor > len`. -/
def add_str (t : List Char) (s : ScrollPrompt) : Option ScrollPrompt :=
  if s.cursor + s.offset = 0 then
    some (overflow_right t.length { s with text := t ++ s.text })
  else if s.cursor + s.offset = s.text.length then
    some { s with text := s.text ++ t, offset := (s.text ++ t).length - s.size }
  else if s.cursor + s.offset ≤ s.text.length then
    some (overflow_right t.length
      { s with text := s.text.take (s.cursor + s.offset) ++ t ++
                          s.text.drop (s.cursor + s.offset) })
  else none

/-- `ScrollPrompt::remove_char` (backspace): `String::remove` panics when
`real_cursor - 1 ≥ len`. -/
def remove_char (s : ScrollPrompt) : Option ScrollPrompt :=
  if s.text = [] then some s
  else if s.cursor + s.offset = 0 then some s
  else if s.cursor + s.offset ≤ s.text.length then
    some (ScrollPrompt.left { s with text := removeAt (s.cursor + s.offset - 1) s.text })
  else none

/-- `ScrollPrompt::update_size` (resize): `old % size` / `old / size` panic
when the incoming width is zero (and differs from the current one). -/
def update_size (w : Nat) (s : ScrollPrompt) : Option ScrollPrompt :=
  if s.size = w then some s
  else if w = 0 then none
  else if (s.cursor + s.offset) / w > s.text.length - w then
    some (ScrollPrompt.up ⟨s.text, w, (s.cursor + s.offset) % w, (s.cursor + s.offset) / w⟩)
  else some ⟨s.text, w, (s.cursor + s.offset) % w, (s.cursor + s.offset) / w⟩

/-- The data-model invariant the spec states for ScrollingLine. -/
def validState (s : ScrollPrompt) : Prop :=
  s.cursor ≤ s.size ∧ s.offset ≤ s.text.length - s.size ∧
    s.offset + s.cursor ≤ s.text.length

instance (s : ScrollPrompt) : Decidable s.validState := by
  unfold validState; infer_instance

end ScrollPrompt

/-- The `StaticPrompt` struct of `static_prompt.rs`. -/
structure StaticPrompt where
  text : List Char
  cursor : Nat
  deriving DecidableEq, Repr

namespace StaticPrompt

/-- `StaticPrompt::is_empty`. -/
def is_empty (t : StaticPrompt) : Bool := t.text.isEmpty

/-- `StaticPrompt::str`. -/
def str (t : StaticPrompt) : List Char := t.text

/-- `StaticPrompt::flush`. -/
def flush (t : StaticPrompt) : List Char × StaticPrompt :=
  (t.text, { t with cursor := 0, text := [] })

/-- `StaticPrompt::down`. -/
def down (t : StaticPrompt) : StaticPrompt := { t with cursor := 0 }

/-- `StaticPrompt::up`. -/
def up (t : StaticPrompt) : StaticPrompt := { t with cursor := t.text.length }

/-- `StaticPrompt::left` (`saturating_sub`). -/
def left (t : StaticPrompt) : StaticPrompt := { t with cursor := t.cursor - 1 }

/-- `StaticPrompt::ctrl_left`; `split_at` panics when `cursor > len`. -/
def ctrl_left (t : StaticPrompt) : Option StaticPrompt :=
  if 0 < t.cursor then
    if t.cursor ≤ t.text.length then
      some { t with cursor := (rfindWs (t.text.take t.cursor)).getD 0 }
    else none
  else some t

/-- `StaticPrompt::right`. -/
def right (t : StaticPrompt) : StaticPrompt :=
  if t.cursor < t.text.length then { t with cursor := t.cursor + 1 } else t

/-- `StaticPrompt::ctrl_right`: under its guard `cursor < len` the
`split_at(cursor + 1)` is always in range, so it never panics. -/
def ctrl_right (t : StaticPrompt) : StaticPrompt :=
  if t.cursor < t.text.length then
    match (t.text.drop (t.cursor + 1)).findIdx? isWs with
    | some n => { t with cursor := t.cursor + n + 1 }
    | none => { t with cursor := t.text.length }
  else t

/-- `StaticPrompt::add_char`: `String::insert` panics when `cursor > len`. -/
def add_char (c : Char) (t : StaticPrompt) : Option StaticPrompt :=
  if t.cursor ≤ t.text.length then
    some (StaticPrompt.right { t with text := insertAt t.cursor c t.text })
  else none

/-- `StaticPrompt::add_str` (paste). -/
def add_str (u : List Char) (t : StaticPrompt) : Option StaticPrompt :=
  if t.cursor = 0 then
    some { t with cursor := u.length, text := u ++ t.text }
  else if t.cursor = t.text.length then
    some { t with text := t.text ++ u, cursor := (t.text ++ u).length }
  else if t.cursor ≤ t.text.length then
    some { t with cursor := t.cursor + u.length,
                  text := t.text.take t.cursor ++ u ++ t.text.drop t.cursor }
  else none

/-- `StaticPrompt::remove_char`. -/
def remove_char (t : StaticPrompt) : Option StaticPrompt :=
  if t.text ≠ [] ∧ 0 < t.cursor then
    if t.cursor ≤ t.text.length then
      some (StaticPrompt.left { t with text := removeAt (t.cursor - 1) t.text })
    else none
  else some t

end StaticPrompt

/-- The key codes the dispatcher in `mod.rs` matches on; `other` stands for
every code falling into its wildcard arm. -/
inductive KeyCode where
  | char (c : Char)
  | backspace
  | rightKey
  | leftKey
  | upKey
  | downKey
  | other
  deriving DecidableEq, Repr

/-- A key event: its code and whether `modifiers` contains `CONTROL` (the
only modifier the dispatcher consults). -/
structure KeyEvent where
  code : KeyCode
  ctrl : Bool
  deriving DecidableEq, Repr

/-- `Prompt::input` (the trait's shared dispatcher) instantiated at
`ScrollPrompt`. The clipboard argument is the result of
`clipboard.get_text()`; on `Err` the code calls `unwrap`, which panics
(`none`). -/
def scrollInput (key : KeyEvent) (clip : Except Unit (List Char))
    (s : ScrollPrompt) : Option ScrollPrompt :=
  match key.code with
  | .char c =>
    if key.ctrl && (c == 'v') then
      match clip with
      | .ok t => s.add_str t
      | .error _ => none
    else s.add_char c
  | .backspace => s.remove_char
  | .rightKey => if key.ctrl then s.ctrl_right else some s.right
  | .leftKey => if key.ctrl then s.ctrl_left else some s.left
  | .upKey => some s.up
  | .downKey => some s.down
  | .other => some s

/-- The operations of the ScrollingLine contract, for stating properties
quantified over operations. -/
inductive Op where
  | moveLeft
  | moveRight
  | wordLeft
  | wordRight
  | jumpStart
  | jumpEnd
  | insertChar (c : Char)
  | insertStr (t : List Char)
  | deleteBefore
  | flushOp
  | resize (w : Nat)
  deriving DecidableEq, Repr

/-- Apply one contract operation to a `ScrollPrompt` (`none` = panic). -/
def applyOp (op : Op) (s : ScrollPrompt) : Option ScrollPrompt :=
  match op with
  | .moveLeft => some s.left
  | .moveRight => some s.right
  | .wordLeft => s.ctrl_left
  | .wordRight => s.ctrl_right
  | .jumpStart => some s.down
  | .jumpEnd => some s.up
  | .insertChar c => s.add_char c
  | .insertStr t => s.add_str t
  | .deleteBefore => s.remove_char
  | .flushOp => some (s.flush).2
  | .resize w => s.update_size w

/-! ## Helper lemmas -/

theorem rfindWs_lt_length {l : List Char} {i : Nat} (h : rfindWs l = some i) :
    i < l.length := by
  induction l generalizing i with
  | nil => simp [rfindWs] at h
  | cons c cs ih =>
    rw [rfindWs] at h
    cases hcs : rfindWs cs with
    | some j =>
      rw [hcs] at h
      simp only [Option.some.injEq] at h
      subst h
      have := ih hcs
      simp only [List.length_cons]
      omega
    | none =>
      rw [hcs] at h
      by_cases hw : isWs c
      · simp only [hw, if_true, Option.some.injEq] at h
        subst h
        simp only [List.length_cons]
        omega
      · simp [hw] at h

theorem rfindWs_getD_le (l : List Char) : (rfindWs l).getD 0 ≤ l.length := by
  cases h : rfindWs l with
  | none => simp
  | some i => simpa using Nat.le_of_lt (rfindWs_lt_length h)

theorem insertAt_length {n : Nat} {l : List Char} (c : Char) (h : n ≤ l.length) :
    (insertAt n c l).length = l.length + 1 := by
  simp only [insertAt, List.length_append, List.length_take, List.length_cons,
    List.length_drop]
  omega

theorem removeAt_length {n : Nat} {l : List Char} (h : n < l.length) :
    (removeAt n l).length = l.length - 1 := by
  simp only [removeAt, List.length_append, List.length_take, List.length_drop]
  omega

namespace ScrollPrompt

theorem overflow_right_text (n : Nat) (s : ScrollPrompt) :
    (s.overflow_right n).text = s.text := by
  simp only [overflow_right]
  split <;> rfl

theorem overflow_right_size (n : Nat) (s : ScrollPrompt) :
    (s.overflow_right n).size = s.size := by
  simp only [overflow_right]
  split <;> rfl

theorem overflow_right_sum (n : Nat) (s : ScrollPrompt) :
    (s.overflow_right n).offset + (s.overflow_right n).cursor =
      s.offset + s.cursor + n := by
  simp only [overflow_right]
  split <;> simp <;> omega

theorem overflow_right_cursor (n : Nat) (s : ScrollPrompt) :
    (s.overflow_right n).cursor ≤ s.size := by
  simp only [overflow_right]
  split
  · rfl
  · simp
    omega

theorem overflow_right_offset_le {L : Nat} (n : Nat) (s : ScrollPrompt)
    (h1 : s.offset + s.cursor + n ≤ L) (h2 : s.offset ≤ L - s.size) :
    (s.overflow_right n).offset ≤ L - s.size := by
  simp only [overflow_right]
  split <;> simp <;> omega

end ScrollPrompt

/-! ## C3: flush round-trip -/

/-- C3: for both variants and every state, `flush` returns exactly the stored
text and leaves an empty buffer with `cursor = 0` (and `offset = 0` for the
scrolling variant); the functional model makes the reset atomic by
construction. -/
theorem flush_round_trip (s : ScrollPrompt) (t : StaticPrompt) :
    (s.flush).1 = s.text ∧ (s.flush).2.is_empty = true ∧
    (s.flush).2.cursor = 0 ∧ (s.flush).2.offset = 0 ∧
    (t.flush).1 = t.text ∧ (t.flush).2.is_empty = true ∧ (t.flush).2.cursor = 0 :=
  ⟨rfl, rfl, rfl, rfl, rfl, rfl, rfl⟩

/-! ## C4: clipboard failure during paste -/

/-- C4 as stated is false: when the clipboard read fails, the dispatcher does
not report an error and leave the buffer usable — it `unwrap`s the failure,
i.e. panics (`none`), rather than producing the unchanged state. -/
theorem clipboard_failure_counterexample :
    scrollInput ⟨KeyCode.char 'v', true⟩ (Except.error ()) ⟨chars "abc", 5, 1, 0⟩ = none ∧
    ¬ scrollInput ⟨KeyCode.char 'v', true⟩ (Except.error ()) ⟨chars "abc", 5, 1, 0⟩ =
        some ⟨chars "abc", 5, 1, 0⟩ := by
  constructor
  · rfl
  · decide

/-- C4 amended: a failed clipboard read during Ctrl+V paste makes the
dispatcher panic (the `Result` is unwrapped), for every buffer state; no
error condition reaches the caller, and no modified buffer is produced. -/
theorem clipboard_failure_panics (s : ScrollPrompt) (e : Unit) :
    scrollInput ⟨KeyCode.char 'v', true⟩ (Except.error e) s = none := rfl

/-! ## C6: word_left when the found whitespace equals the offset -/

/-- C6 as stated is false: from the valid state
(text `"a bcd"`, `W = 2`, `cursor = 2`, `offset = 1`) the last whitespace in
`text[0 .. 3]` is at index `1 = offset`, and `ctrl_left` produces
`cursor = 1, offset = 0` — the visible cursor is the old offset, not `0`. -/
theorem ctrl_left_found_eq_offset_counterexample :
    ScrollPrompt.validState ⟨chars "a bcd", 2, 2, 1⟩ ∧
    (rfindWs ((chars "a bcd").take 3)).getD 0 = 1 ∧
    ScrollPrompt.ctrl_left ⟨chars "a bcd", 2, 2, 1⟩ = some ⟨chars "a bcd", 2, 1, 0⟩ ∧
    ¬ ScrollPrompt.ctrl_left ⟨chars "a bcd", 2, 2, 1⟩ = some ⟨chars "a bcd", 2, 0, 0⟩ := by
  decide

/-- C6 amended: when the last whitespace index found in
`text[0 .. absolute_cursor]` equals `offset`, `ctrl_left` sets the visible
cursor to that found index (the old offset value) and collapses `offset` to
`0`; the absolute cursor lands on the whitespace, not at position `0`. -/
theorem ctrl_left_found_eq_offset (s : ScrollPrompt)
    (hguard : ¬ (s.cursor = 0 ∧ s.offset = 0))
    (hlen : s.cursor + s.offset ≤ s.text.length)
    (hfound : (rfindWs (s.text.take (s.cursor + s.offset))).getD 0 = s.offset) :
    ScrollPrompt.ctrl_left s = some { s with cursor := s.offset, offset := 0 } := by
  rw [ScrollPrompt.ctrl_left, if_neg hguard, if_pos hlen]
  simp only [hfound, Nat.lt_irrefl, if_false]

theorem ctrl_left_found_eq_offset_witness :
    ScrollPrompt.ctrl_left ⟨chars "a bcd", 2, 2, 1⟩ = some ⟨chars "a bcd", 2, 1, 0⟩ := by
  have h := ctrl_left_found_eq_offset ⟨chars "a bcd", 2, 2, 1⟩ (by decide) (by decide) (by decide)
  rw [h]

/-! ## C8: delete scenario -/

/-- C8 as stated is false: from (width 5, text `"Some text here"`,
`offset = 3, cursor = 0`), one `remove_char` deletes the character at
absolute index 2 giving `"Soe text here"` with `offset = 2`, so the visible
text is `"e text here"`, not `" text here"`. -/
theorem delete_scenario_counterexample :
    ScrollPrompt.remove_char ⟨chars "Some text here", 5, 0, 3⟩ =
      some ⟨chars "Soe text here", 5, 0, 2⟩ ∧
    ScrollPrompt.str ⟨chars "Soe text here", 5, 0, 2⟩ = some (chars "e text here") ∧
    chars "e text here" ≠ chars " text here" := by
  decide

/-- C8 amended: for a ScrollingLine with width 5, text `"Some text here"`,
`offset = 3`, `cursor = 0`, a single `delete_before_cursor()` yields the
visible text `"e text here"` (the spec's `" text here"` describes the state
of the sequential repository test, whose text at that point is
`"Sme text here"`). -/
theorem delete_scenario_amended :
    (ScrollPrompt.remove_char ⟨chars "Some text here", 5, 0, 3⟩).bind
        ScrollPrompt.str = some (chars "e text here") ∧
    (ScrollPrompt.remove_char ⟨chars "Sme text here", 5, 0, 3⟩).bind
        ScrollPrompt.str = some (chars " text here") := by
  decide

/-! ## C10: dispatcher treatment of Ctrl plus character -/

/-- C10: a character key with CONTROL whose character is not `'v'` is handled
exactly like the unmodified keystroke (`add_char`); only Ctrl+V is
special-cased as paste, and every key code in the wildcard arm leaves the
state unchanged. -/
theorem ctrl_char_dispatch (s : ScrollPrompt) (c : Char)
    (clip : Except Unit (List Char)) (b : Bool) :
    (c ≠ 'v' →
      scrollInput ⟨KeyCode.char c, true⟩ clip s = ScrollPrompt.add_char c s ∧
      scrollInput ⟨KeyCode.char c, true⟩ clip s =
        scrollInput ⟨KeyCode.char c, false⟩ clip s) ∧
    scrollInput ⟨KeyCode.other, b⟩ clip s = some s := by
  constructor
  · intro h
    have hbeq : (c == 'v') = false := by
      simpa using h
    constructor <;> simp [scrollInput, hbeq]
  · rfl

theorem ctrl_char_dispatch_witness :
    scrollInput ⟨KeyCode.char 'a', true⟩ (Except.ok []) ⟨chars "xy", 5, 1, 0⟩ =
      ScrollPrompt.add_char 'a' ⟨chars "xy", 5, 1, 0⟩ :=
  ((ctrl_char_dispatch ⟨chars "xy", 5, 1, 0⟩ 'a' (Except.ok []) true).1 (by decide)).1

/-! ## Invariant preservation lemmas (per operation) -/

namespace ScrollPrompt

theorem validState_down {s : ScrollPrompt} : s.down.validState := by
  simp [down, validState]

theorem validState_up (s : ScrollPrompt) : s.up.validState := by
  simp only [up, max_cursor, max_offset, validState]
  split <;> omega

theorem validState_left {s : ScrollPrompt} (h : s.validState) :
    s.left.validState := by
  obtain ⟨h1, h2, h3⟩ := h
  simp only [left, validState]
  split <;> (dsimp only; omega)

theorem not_eol_of {s : ScrollPrompt} (h : ¬ s.eol = true) :
    s.cursor + s.offset ≠ s.text.length := by
  simpa [eol] using h

theorem validState_right {s : ScrollPrompt} (h : s.validState) :
    s.right.validState := by
  obtain ⟨h1, h2, h3⟩ := h
  simp only [right, validState]
  split
  · exact ⟨h1, h2, h3⟩
  · next he =>
    have hne := not_eol_of he
    split <;> (dsimp only; omega)

theorem validState_ctrl_right {s s' : ScrollPrompt} (h : s.validState)
    (heq : s.ctrl_right = some s') : s'.validState := by
  obtain ⟨h1, h2, h3⟩ := h
  rw [ctrl_right] at heq
  split at heq
  · obtain rfl := Option.some.inj heq
    exact ⟨h1, h2, h3⟩
  · split at heq
    · split at heq
      · next n hn =>
        have hlt : n < (s.text.drop (s.cursor + s.offset)).length :=
          (List.findIdx?_eq_some_iff_findIdx_eq.mp hn).1
        rw [List.length_drop] at hlt
        obtain rfl := Option.some.inj heq
        refine ⟨?_, ?_, ?_⟩
        · rw [overflow_right_size]
          exact overflow_right_cursor (n + 1) s
        · rw [overflow_right_size, overflow_right_text]
          exact overflow_right_offset_le (n + 1) s (by omega) (by omega)
        · rw [overflow_right_text, overflow_right_sum]
          omega
      · obtain rfl := Option.some.inj heq
        exact validState_up s
    · exact absurd heq (by simp)

theorem validState_add_char {s s' : ScrollPrompt} {c : Char} (h : s.validState)
    (heq : s.add_char c = some s') : s'.validState := by
  obtain ⟨h1, h2, h3⟩ := h
  rw [add_char] at heq
  split at heq
  · next hle =>
    obtain rfl := Option.some.inj heq
    apply validState_right
    refine ⟨h1, ?_, ?_⟩ <;>
      simp only [insertAt_length c (by omega : s.cursor + s.offset ≤ s.text.length)] <;>
      omega
  · exact absurd heq (by simp)

theorem validState_add_str {s s' : ScrollPrompt} {t : List Char} (h : s.validState)
    (heq : s.add_str t = some s') : s'.validState := by
  obtain ⟨h1, h2, h3⟩ := h
  rw [add_str] at heq
  split at heq
  · next h0 =>
    obtain rfl := Option.some.inj heq
    refine ⟨?_, ?_, ?_⟩
    · rw [overflow_right_size]
      exact overflow_right_cursor _ _
    · rw [overflow_right_size, overflow_right_text]
      refine overflow_right_offset_le _ _ ?_ ?_ <;> simp <;> omega
    · rw [overflow_right_text, overflow_right_sum]
      simp
      omega
  · split at heq
    · next hlen =>
      obtain rfl := Option.some.inj heq
      refine ⟨h1, ?_, ?_⟩ <;> simp only [List.length_append] <;> omega
    · split at heq
      · next h0 hlen hle =>
        obtain rfl := Option.some.inj heq
        have hlen1 : (s.text.take (s.cursor + s.offset) ++ t ++
            s.text.drop (s.cursor + s.offset)).length = s.text.length + t.length := by
          simp only [List.length_append, List.length_take, List.length_drop]
          omega
        refine ⟨?_, ?_, ?_⟩
        · rw [overflow_right_size]
          exact overflow_right_cursor _ _
        · rw [overflow_right_size, overflow_right_text, hlen1]
          exact overflow_right_offset_le _ _ (by dsimp only; omega)
            (by dsimp only; omega)
        · rw [overflow_right_text, overflow_right_sum, hlen1]
          dsimp only
          omega
      · exact absurd heq (by simp)

theorem remove_char_inv {s s' : ScrollPrompt} (h : s.validState)
    (heq : s.remove_char = some s') :
    s'.cursor ≤ s'.size ∧ s'.offset + s'.cursor ≤ s'.text.length := by
  obtain ⟨h1, h2, h3⟩ := h
  rw [remove_char] at heq
  split at heq
  · obtain rfl := Option.some.inj heq
    exact ⟨h1, h3⟩
  · split at heq
    · obtain rfl := Option.some.inj heq
      exact ⟨h1, h3⟩
    · split at heq
      · next hne h0 hle =>
        obtain rfl := Option.some.inj heq
        have hlen1 : (removeAt (s.cursor + s.offset - 1) s.text).length =
            s.text.length - 1 := removeAt_length (by omega)
        simp only [left]
        split <;> (dsimp only; simp only [hlen1]; omega)
      · exact absurd heq (by simp)

theorem ctrl_left_inv {s s' : ScrollPrompt} (h : s.validState)
    (heq : s.ctrl_left = some s') :
    s'.offset + s'.cursor ≤ s'.text.length ∧
      s'.offset ≤ s'.text.length - s'.size := by
  obtain ⟨h1, h2, h3⟩ := h
  rw [ctrl_left] at heq
  split at heq
  · obtain rfl := Option.some.inj heq
    exact ⟨h3, h2⟩
  · split at heq
    · next hle =>
      have hfound : (rfindWs (s.text.take (s.cursor + s.offset))).getD 0 ≤
          s.text.length := by
        refine le_trans (rfindWs_getD_le _) ?_
        simp [List.length_take]
      split at heq
      · next hlt =>
        obtain rfl := Option.some.inj heq
        dsimp only
        omega
      · split at heq
        · next hgt =>
          obtain rfl := Option.some.inj heq
          dsimp only
          omega
        · obtain rfl := Option.some.inj heq
          dsimp only
          omega
    · exact absurd heq (by simp)

theorem validState_update_size {s s' : ScrollPrompt} {w : Nat} (h : s.validState)
    (heq : s.update_size w = some s') : s'.validState := by
  obtain ⟨h1, h2, h3⟩ := h
  rw [update_size] at heq
  split at heq
  · obtain rfl := Option.some.inj heq
    exact ⟨h1, h2, h3⟩
  · split at heq
    · exact absurd heq (by simp)
    · split at heq
      · obtain rfl := Option.some.inj heq
        exact validState_up _
      · next hne hw0 hoff =>
        obtain rfl := Option.some.inj heq
        simp only [validState]
        have hmod : (s.cursor + s.offset) % w < w :=
          Nat.mod_lt _ (by omega)
        have hdm : w * ((s.cursor + s.offset) / w) + (s.cursor + s.offset) % w =
            s.cursor + s.offset := Nat.div_add_mod _ _
        have hmul : (s.cursor + s.offset) / w ≤ w * ((s.cursor + s.offset) / w) :=
          Nat.le_mul_of_pos_left _ (by omega)
        omega

theorem validState_flush (s : ScrollPrompt) : (s.flush).2.validState := by
  simp [flush, down, validState]

end ScrollPrompt

/-! ## C1: the ScrollingLine invariant -/

/-- C1 as stated is false: from the valid state
(text `"abcdef"`, `W = 5`, `cursor = 1`, `offset = 1`) a single
`delete_before_cursor` (one of the listed operations) yields
`offset = 1 > max(0, len - W) = 0`, violating the invariant. -/
theorem scroll_invariant_counterexample :
    ScrollPrompt.validState ⟨chars "abcdef", 5, 1, 1⟩ ∧
    applyOp Op.deleteBefore ⟨chars "abcdef", 5, 1, 1⟩ =
      some ⟨chars "acdef", 5, 0, 1⟩ ∧
    ¬ ScrollPrompt.validState ⟨chars "acdef", 5, 0, 1⟩ := by
  decide

/-- C1 amended: from a state satisfying the invariant, one operation always
re-establishes `offset + cursor ≤ len(text)`; it re-establishes
`cursor ≤ W` unless it is `word_left` (whose `found == offset` branch can set
`cursor` to the old offset, above `W`), and it re-establishes
`offset ≤ max(0, len - W)` unless it is `delete_before_cursor` (which shrinks
the text without lowering `offset`). The full three-part invariant is
therefore not preserved by arbitrary operation sequences. -/
theorem scroll_invariant_amended (op : Op) (s s' : ScrollPrompt)
    (h : s.validState) (heq : applyOp op s = some s') :
    s'.offset + s'.cursor ≤ s'.text.length ∧
    (op ≠ Op.wordLeft → s'.cursor ≤ s'.size) ∧
    (op ≠ Op.deleteBefore → s'.offset ≤ s'.text.length - s'.size) := by
  cases op with
  | moveLeft =>
    obtain rfl : s.left = s' := Option.some.inj heq
    obtain ⟨h1, h2, h3⟩ := ScrollPrompt.validState_left h
    exact ⟨h3, fun _ => h1, fun _ => h2⟩
  | moveRight =>
    obtain rfl : s.right = s' := Option.some.inj heq
    obtain ⟨h1, h2, h3⟩ := ScrollPrompt.validState_right h
    exact ⟨h3, fun _ => h1, fun _ => h2⟩
  | wordLeft =>
    obtain ⟨ha, hb⟩ := ScrollPrompt.ctrl_left_inv h heq
    exact ⟨ha, fun hc => absurd rfl hc, fun _ => hb⟩
  | wordRight =>
    obtain ⟨h1, h2, h3⟩ := ScrollPrompt.validState_ctrl_right h heq
    exact ⟨h3, fun _ => h1, fun _ => h2⟩
  | jumpStart =>
    obtain rfl : s.down = s' := Option.some.inj heq
    obtain ⟨h1, h2, h3⟩ := ScrollPrompt.validState_down (s := s)
    exact ⟨h3, fun _ => h1, fun _ => h2⟩
  | jumpEnd =>
    obtain rfl : s.up = s' := Option.some.inj heq
    obtain ⟨h1, h2, h3⟩ := ScrollPrompt.validState_up s
    exact ⟨h3, fun _ => h1, fun _ => h2⟩
  | insertChar c =>
    obtain ⟨h1, h2, h3⟩ := ScrollPrompt.validState_add_char h heq
    exact ⟨h3, fun _ => h1, fun _ => h2⟩
  | insertStr t =>
    obtain ⟨h1, h2, h3⟩ := ScrollPrompt.validState_add_str h heq
    exact ⟨h3, fun _ => h1, fun _ => h2⟩
  | deleteBefore =>
    obtain ⟨ha, hb⟩ := ScrollPrompt.remove_char_inv h heq
    exact ⟨hb, fun _ => ha, fun hc => absurd rfl hc⟩
  | flushOp =>
    obtain rfl : (s.flush).2 = s' := Option.some.inj heq
    obtain ⟨h1, h2, h3⟩ := ScrollPrompt.validState_flush s
    exact ⟨h3, fun _ => h1, fun _ => h2⟩
  | resize w =>
    obtain ⟨h1, h2, h3⟩ := ScrollPrompt.validState_update_size h heq
    exact ⟨h3, fun _ => h1, fun _ => h2⟩

theorem scroll_invariant_amended_witness :
    (ScrollPrompt.offset ⟨chars "ab", 5, 0, 0⟩ + ScrollPrompt.cursor ⟨chars "ab", 5, 0, 0⟩ ≤
      (chars "ab").length) ∧
    (Op.moveLeft ≠ Op.wordLeft →
      ScrollPrompt.cursor ⟨chars "ab", 5, 0, 0⟩ ≤ ScrollPrompt.size ⟨chars "ab", 5, 0, 0⟩) ∧
    (Op.moveLeft ≠ Op.deleteBefore →
      ScrollPrompt.offset ⟨chars "ab", 5, 0, 0⟩ ≤
        (chars "ab").length - ScrollPrompt.size ⟨chars "ab", 5, 0, 0⟩) :=
  scroll_invariant_amended Op.moveLeft ⟨chars "ab", 5, 1, 0⟩ ⟨chars "ab", 5, 0, 0⟩
    (by decide) (by decide)

/-! ## C2: totality of the operations -/

/-- C2 as stated is false: from the valid state (text `"a"`, `W = 5`,
`cursor = 0`, `offset = 0`), `resize(0)` divides by zero
(`real_cursor % 0` in `update_size`), i.e. panics instead of producing a
state. -/
theorem totality_counterexample :
    ScrollPrompt.validState ⟨chars "a", 5, 0, 0⟩ ∧
    applyOp (Op.resize 0) ⟨chars "a", 5, 0, 0⟩ = none := by
  decide

/-- C2 amended: on every state with `cursor + offset ≤ len(text)` (in
particular on every valid state: empty text, cursor at either extremity,
`offset == max_offset`, `W == 0`, `W > len(text)`), every operation other
than a resize to width `0` produces a state without evaluating an
out-of-range index; `resize(0)` from `W ≠ 0` panics with a division by
zero. -/
theorem totality_amended (op : Op) (s : ScrollPrompt)
    (h : s.cursor + s.offset ≤ s.text.length)
    (hw : ∀ w, op = Op.resize w → w = s.size ∨ 0 < w) :
    (applyOp op s).isSome = true := by
  cases op with
  | moveLeft => rfl
  | moveRight => rfl
  | wordLeft =>
    simp only [applyOp, ScrollPrompt.ctrl_left]
    repeat' split
    all_goals rfl
  | wordRight =>
    simp only [applyOp, ScrollPrompt.ctrl_right]
    repeat' split
    all_goals rfl
  | jumpStart => rfl
  | jumpEnd => rfl
  | insertChar c =>
    simp only [applyOp, ScrollPrompt.add_char]
    repeat' split
    all_goals rfl
  | insertStr t =>
    simp only [applyOp, ScrollPrompt.add_str]
    repeat' split
    all_goals rfl
  | deleteBefore =>
    simp only [applyOp, ScrollPrompt.remove_char]
    repeat' split
    all_goals rfl
  | flushOp => rfl
  | resize w =>
    rcases hw w rfl with hww | hww <;>
      simp only [applyOp, ScrollPrompt.update_size] <;>
      (repeat' split) <;>
      first | rfl | omega

theorem totality_amended_witness :
    (applyOp Op.deleteBefore ⟨chars "abc", 5, 2, 0⟩).isSome = true :=
  totality_amended Op.deleteBefore ⟨chars "abc", 5, 2, 0⟩ (by decide)
    (fun w hw => Op.noConfusion hw)

/-! ## C9: frame condition on the viewport width -/

/-- C9: every ScrollingLine operation other than resize leaves `W` (`size`)
unchanged, and `flush` resets `text`, `cursor` and `offset` to the empty
state while preserving the current `W`. -/
theorem width_frame (op : Op) (s s' : ScrollPrompt)
    (heq : applyOp op s = some s') (hop : ∀ w, op ≠ Op.resize w) :
    s'.size = s.size ∧
    (s.flush).1 = s.text ∧ (s.flush).2 = ⟨[], s.size, 0, 0⟩ := by
  refine ⟨?_, rfl, rfl⟩
  cases op with
  | moveLeft =>
    obtain rfl := Option.some.inj heq
    simp only [ScrollPrompt.left]
    split <;> rfl
  | moveRight =>
    obtain rfl := Option.some.inj heq
    simp only [ScrollPrompt.right]
    split
    · rfl
    · split <;> rfl
  | wordLeft =>
    simp only [applyOp, ScrollPrompt.ctrl_left] at heq
    split at heq
    · obtain rfl := Option.some.inj heq
      rfl
    · split at heq
      · split at heq
        · obtain rfl := Option.some.inj heq
          rfl
        · split at heq <;> (obtain rfl := Option.some.inj heq; rfl)
      · exact absurd heq (by simp)
  | wordRight =>
    simp only [applyOp, ScrollPrompt.ctrl_right] at heq
    split at heq
    · obtain rfl := Option.some.inj heq
      rfl
    · split at heq
      · split at heq
        · obtain rfl := Option.some.inj heq
          rw [ScrollPrompt.overflow_right_size]
        · obtain rfl := Option.some.inj heq
          rfl
      · exact absurd heq (by simp)
  | jumpStart =>
    obtain rfl := Option.some.inj heq
    rfl
  | jumpEnd =>
    obtain rfl := Option.some.inj heq
    rfl
  | insertChar c =>
    simp only [applyOp, ScrollPrompt.add_char] at heq
    split at heq
    · obtain rfl := Option.some.inj heq
      simp only [ScrollPrompt.right]
      split
      · rfl
      · split <;> rfl
    · exact absurd heq (by simp)
  | insertStr t =>
    simp only [applyOp, ScrollPrompt.add_str] at heq
    split at heq
    · obtain rfl := Option.some.inj heq
      rw [ScrollPrompt.overflow_right_size]
    · split at heq
      · obtain rfl := Option.some.inj heq
        rfl
      · split at heq
        · obtain rfl := Option.some.inj heq
          rw [ScrollPrompt.overflow_right_size]
        · exact absurd heq (by simp)
  | deleteBefore =>
    simp only [applyOp, ScrollPrompt.remove_char] at heq
    split at heq
    · obtain rfl := Option.some.inj heq
      rfl
    · split at heq
      · obtain rfl := Option.some.inj heq
        rfl
      · split at heq
        · obtain rfl := Option.some.inj heq
          simp only [ScrollPrompt.left]
          split <;> rfl
        · exact absurd heq (by simp)
  | flushOp =>
    obtain rfl := Option.some.inj heq
    rfl
  | resize w => exact absurd rfl (hop w)

theorem width_frame_witness :
    (ScrollPrompt.size ⟨chars "hi", 7, 0, 0⟩ = ScrollPrompt.size ⟨chars "hi", 7, 1, 0⟩) ∧
    (ScrollPrompt.flush ⟨chars "hi", 7, 1, 0⟩).1 = chars "hi" ∧
    (ScrollPrompt.flush ⟨chars "hi", 7, 1, 0⟩).2 = ⟨[], 7, 0, 0⟩ :=
  width_frame Op.jumpStart ⟨chars "hi", 7, 1, 0⟩ ⟨chars "hi", 7, 0, 0⟩
    (by decide) (fun w => Op.noConfusion)

/-! ## C7: resize recomputation -/

/-- C7: for `new_width ≠ W` (and nonzero, since §C2 shows `resize(0)`
panics), resize sets `W = new_width`, `cursor = abs mod new_width`,
`offset = abs div new_width` with `abs` the absolute cursor before the
resize, replacing the state with `jump_to_end()` when that offset exceeds
the new `max_offset`; `resize(W)` is a no-op; and the width-5
`"123456789"`/`offset 4` scenario resizes to width 20 as
`offset = 0, cursor = 4` with visible text `"123456789"`. -/
theorem resize_quotient (s : ScrollPrompt) (w : Nat) (hw : 0 < w)
    (hne : s.size ≠ w) :
    ScrollPrompt.update_size w s =
      some (if s.real_cursor / w > s.text.length - w
            then ScrollPrompt.up ⟨s.text, w, s.real_cursor % w, s.real_cursor / w⟩
            else ⟨s.text, w, s.real_cursor % w, s.real_cursor / w⟩) ∧
    ScrollPrompt.update_size s.size s = some s ∧
    ScrollPrompt.update_size 20 ⟨chars "123456789", 5, 0, 4⟩ =
      some ⟨chars "123456789", 20, 4, 0⟩ ∧
    (ScrollPrompt.update_size 20 ⟨chars "123456789", 5, 0, 4⟩).bind
        ScrollPrompt.str = some (chars "123456789") := by
  refine ⟨?_, ?_, by decide, by decide⟩
  · rw [ScrollPrompt.update_size, if_neg hne, if_neg (by omega),
      ScrollPrompt.real_cursor]
    split <;> rfl
  · rw [ScrollPrompt.update_size, if_pos rfl]

theorem resize_quotient_witness :
    ScrollPrompt.update_size 3 ⟨chars "ab", 5, 1, 0⟩ = some ⟨chars "ab", 3, 1, 0⟩ := by
  have h := (resize_quotient ⟨chars "ab", 5, 1, 0⟩ 3 (by decide) (by decide)).1
  rw [h]
  decide

/-! ## C5: word_right -/

theorem findIdx?_drop_eq_some {l : List Char} {k p : Nat}
    (hp : p < l.length) (hkp : k ≤ p)
    (hws : isWs (l.getD p ' ') = true)
    (hmin : ∀ i, i < p → k ≤ i → isWs (l.getD i ' ') = false) :
    (l.drop k).findIdx? isWs = some (p - k) := by
  have hlen : p - k < (l.drop k).length := by
    rw [List.length_drop]
    omega
  have hkpk : k + (p - k) = p := by omega
  rw [List.findIdx?_eq_some_iff_getElem]
  refine ⟨hlen, ?_, ?_⟩
  · rw [List.getElem_drop]
    simp only [hkpk]
    rw [List.getD_eq_getElem?_getD, List.getElem?_eq_getElem hp] at hws
    simpa using hws
  · intro j hj
    rw [List.getElem_drop]
    have hjk : k + j < l.length := by omega
    have hf := hmin (k + j) (by omega) (by omega)
    rw [List.getD_eq_getElem?_getD, List.getElem?_eq_getElem hjk] at hf
    simp only [Option.getD_some] at hf
    simp [hf]

theorem findIdx?_drop_eq_none {l : List Char} {k : Nat}
    (hall : ∀ i, i < l.length → k ≤ i → isWs (l.getD i ' ') = false) :
    (l.drop k).findIdx? isWs = none := by
  rw [List.findIdx?_eq_none_iff]
  intro x hx
  obtain ⟨j, hj, rfl⟩ := List.mem_iff_getElem.mp hx
  rw [List.getElem_drop]
  have hlt : k + j < l.length := by
    rw [List.length_drop] at hj
    omega
  have := hall (k + j) hlt (by omega)
  rw [List.getD_eq_getElem?_getD, List.getElem?_eq_getElem hlt] at this
  simpa using this

/-- C5 as stated is false for the Scrolling variant: on
(text `"a b"`, `W = 5`, `cursor = 1`, `offset = 0`) there is no whitespace
in `text[absolute_cursor + 1 ..]`, so the claim demands `jump_to_end`
(cursor at position 3); but the code scans from `absolute_cursor` inclusive,
finds the whitespace under the cursor, and lands at position 2. -/
theorem word_right_counterexample :
    (∀ i, i < (chars "a b").length → 1 + 1 ≤ i →
        isWs ((chars "a b").getD i ' ') = false) ∧
    ScrollPrompt.ctrl_right ⟨chars "a b", 5, 1, 0⟩ = some ⟨chars "a b", 5, 2, 0⟩ ∧
    ScrollPrompt.up ⟨chars "a b", 5, 1, 0⟩ = ⟨chars "a b", 5, 3, 0⟩ ∧
    (⟨chars "a b", 5, 2, 0⟩ : ScrollPrompt) ≠ ⟨chars "a b", 5, 3, 0⟩ := by
  decide

/-- C5 amended: both variants are no-ops at end-of-line. For ScrollingLine,
`word_right` scans `text[absolute_cursor ..]` — including the character
under the cursor — for the first whitespace; if it sits at absolute index
`p`, the cursor advances by `(p - absolute_cursor) + 1` under overflow-right,
landing the absolute cursor at `p + 1`; with no whitespace there it jumps to
`jump_to_end()`. For the Unbounded/Truncated variant, `word_right` scans
`text[cursor + 1 ..]`; if the first whitespace there is at index `p` the
cursor lands at `p` (immediately before that whitespace), else at
`len(text)`. -/
theorem word_right_characterization :
    (∀ s : ScrollPrompt, s.eol = true → ScrollPrompt.ctrl_right s = some s) ∧
    (∀ (s : ScrollPrompt) (p : Nat),
      s.eol = false →
      p < s.text.length →
      s.cursor + s.offset ≤ p →
      isWs (s.text.getD p ' ') = true →
      (∀ i, i < p → s.cursor + s.offset ≤ i → isWs (s.text.getD i ' ') = false) →
      ScrollPrompt.ctrl_right s =
        some (ScrollPrompt.overflow_right (p - (s.cursor + s.offset) + 1) s) ∧
      (ScrollPrompt.overflow_right (p - (s.cursor + s.offset) + 1) s).offset +
        (ScrollPrompt.overflow_right (p - (s.cursor + s.offset) + 1) s).cursor =
          p + 1) ∧
    (∀ s : ScrollPrompt,
      s.eol = false → s.cursor + s.offset ≤ s.text.length →
      (∀ i, i < s.text.length → s.cursor + s.offset ≤ i →
          isWs (s.text.getD i ' ') = false) →
      ScrollPrompt.ctrl_right s = some s.up) ∧
    (∀ (t : StaticPrompt) (p : Nat),
      t.cursor < t.text.length →
      p < t.text.length →
      t.cursor + 1 ≤ p →
      isWs (t.text.getD p ' ') = true →
      (∀ i, i < p → t.cursor + 1 ≤ i → isWs (t.text.getD i ' ') = false) →
      StaticPrompt.ctrl_right t = { t with cursor := p }) ∧
    (∀ t : StaticPrompt,
      t.cursor < t.text.length →
      (∀ i, i < t.text.length → t.cursor + 1 ≤ i →
          isWs (t.text.getD i ' ') = false) →
      StaticPrompt.ctrl_right t = { t with cursor := t.text.length }) ∧
    (∀ t : StaticPrompt, t.text.length ≤ t.cursor → StaticPrompt.ctrl_right t = t) := by
  refine ⟨?_, ?_, ?_, ?_, ?_, ?_⟩
  · intro s h
    rw [ScrollPrompt.ctrl_right, if_pos h]
  · intro s p heol hp hkp hws hmin
    have hreal : s.cursor + s.offset ≤ s.text.length := by omega
    have hfind := findIdx?_drop_eq_some hp hkp hws hmin
    constructor
    · rw [ScrollPrompt.ctrl_right, if_neg (by simp [heol]), if_pos hreal, hfind]
    · rw [ScrollPrompt.overflow_right_sum]
      omega
  · intro s heol hle hall
    rw [ScrollPrompt.ctrl_right, if_neg (by simp [heol]), if_pos hle,
      findIdx?_drop_eq_none hall]
  · intro t p hc hp hkp hws hmin
    have hfind := findIdx?_drop_eq_some hp hkp hws hmin
    rw [StaticPrompt.ctrl_right, if_pos hc, hfind]
    have hval : t.cursor + (p - (t.cursor + 1)) + 1 = p := by omega
    dsimp only
    rw [hval]
  · intro t hc hall
    rw [StaticPrompt.ctrl_right, if_pos hc, findIdx?_drop_eq_none hall]
  · intro t h
    rw [StaticPrompt.ctrl_right, if_neg (by omega)]

theorem word_right_witness :
    ScrollPrompt.ctrl_right ⟨chars "many words here", 5, 5, 0⟩ =
      some ⟨chars "many words here", 5, 5, 6⟩ := by
  have h := (word_right_characterization.2.1 ⟨chars "many words here", 5, 5, 0⟩ 10
    (by decide) (by decide) (by decide) (by decide) (by decide)).1
  rw [h]
  decide
